import Mathlib

/-
Verification of the structure-materializer scripts (`admin.py` and `web.py`).

Both scripts contain a recursive helper `create_files_and_dirs(parent_path, items)`
walking a nested dict (`dict` value = directory, `str` value = file content), and an
entry point `create_structure()` that creates a fixed base directory with
`mkdir(parents=True, exist_ok=True)`, materializes a static tree literal under it,
and prints one completion line.

The filesystem is modelled as an association list from paths (lists of name
segments, root = `[]`) to objects (directory, or file with string contents).
The POSIX-level primitives used by the scripts are modelled explicitly:
  * `Path.mkdir(exist_ok=True)`            → `mkdirEO`
  * `open(p, "w")` followed by `f.write`   → `writeFileW`
  * `Path.mkdir(parents=True, exist_ok=True)` → `mkdirParentsEO`
Fallible operations return `Except FS FS`; the `.error` payload is the (unchanged
at the failing call, partially built overall) filesystem state at the moment the
Python exception is raised, so that error propagation keeps the partial state.
-/

namespace ModularApp

/-- A filesystem object: a directory, or a regular file with string contents. -/
inductive FSObj where
  | dirO : FSObj
  | fileO : String → FSObj
deriving DecidableEq, Repr

/-- Filesystem state: a finite association list from absolute paths (lists of
name segments, relative to the root `[]`) to objects.  The root itself is
implicitly always a directory (see `getObj`). -/
abbrev FS := List (List String × FSObj)

/-- First-match association-list lookup. -/
def lookupFS : FS → List String → Option FSObj
  | [], _ => none
  | (q, v) :: rest, p => if q = p then some v else lookupFS rest p

/-- The object at path `p`; the root `[]` is always a directory. -/
def getObj (fs : FS) (p : List String) : Option FSObj :=
  if p = [] then some .dirO else lookupFS fs p

/-- Replace the first binding of `p` (or append a fresh one) with object `v`. -/
def setObj : FS → List String → FSObj → FS
  | [], p, v => [(p, v)]
  | (q, w) :: rest, p, v => if q = p then (p, v) :: rest else (q, w) :: setObj rest p v

/-- Model of `Path.mkdir(exist_ok=True)` (no `parents=True`): succeeds leaving the
state unchanged when `p` is already a directory; fails (`FileExistsError`) when a
non-directory sits at `p`; otherwise creates the directory provided the parent of
`p` exists as a directory, failing (`FileNotFoundError`/`NotADirectoryError`)
when it does not. -/
def mkdirEO (fs : FS) (p : List String) : Except FS FS :=
  match getObj fs p with
  | some .dirO => .ok fs
  | some (.fileO _) => .error fs
  | none =>
    match getObj fs p.dropLast with
    | some .dirO => .ok (setObj fs p .dirO)
    | _ => .error fs

/-- Model of `open(p, "w")` + `f.write(c)`: truncates/overwrites an existing
file, fails (`IsADirectoryError`) when `p` is a directory, and creates the file
when `p` is absent provided the parent of `p` exists as a directory. -/
def writeFileW (fs : FS) (p : List String) (c : String) : Except FS FS :=
  match getObj fs p with
  | some .dirO => .error fs
  | some (.fileO _) => .ok (setObj fs p (.fileO c))
  | none =>
    match getObj fs p.dropLast with
    | some .dirO => .ok (setObj fs p (.fileO c))
    | _ => .error fs

/-- Model of `Path.mkdir(parents=True, exist_ok=True)`: starting below the
already-existing prefix `done`, create each missing segment of `segs` in order,
failing when some segment collides with an existing non-directory. -/
def mkdirParentsEO : FS → List String → List String → Except FS FS
  | fs, _, [] => .ok fs
  | fs, done, s :: rest =>
    match mkdirEO fs (done ++ [s]) with
    | .ok fs1 => mkdirParentsEO fs1 (done ++ [s]) rest
    | .error e => .error e

/-- A node of the structure literal: a file (leaf `str` value of the dict) or a
directory (nested dict), whose entries are kept in insertion order. -/
inductive Node where
  | file : String → Node
  | dir : List (String × Node) → Node

/-- The recursive helper `create_files_and_dirs(parent_path, items)` of
`admin.py` (lines 220‑231): for each `(name, content)` of `items` in insertion
order, either `mkdir(exist_ok=True)` + recurse (dict value) or open-write
(string value), propagating the first filesystem error. -/
def create_files_and_dirs : FS → List String → List (String × Node) → Except FS FS
  | fs, _, [] => .ok fs
  | fs, parent_path, (name, .dir sub) :: rest =>
    match mkdirEO fs (parent_path ++ [name]) with
    | .ok fs1 =>
      match create_files_and_dirs fs1 (parent_path ++ [name]) sub with
      | .ok fs2 => create_files_and_dirs fs2 parent_path rest
      | .error e => .error e
    | .error e => .error e
  | fs, parent_path, (name, .file content) :: rest =>
    match writeFileW fs (parent_path ++ [name]) content with
    | .ok fs1 => create_files_and_dirs fs1 parent_path rest
    | .error e => .error e

/-- The recursive helper `create_files_and_dirs(parent_path, items)` of
`web.py` (lines 136‑147); the source text is identical to the one in
`admin.py`. -/
def web_create_files_and_dirs : FS → List String → List (String × Node) → Except FS FS
  | fs, _, [] => .ok fs
  | fs, parent_path, (name, .dir sub) :: rest =>
    match mkdirEO fs (parent_path ++ [name]) with
    | .ok fs1 =>
      match web_create_files_and_dirs fs1 (parent_path ++ [name]) sub with
      | .ok fs2 => web_create_files_and_dirs fs2 parent_path rest
      | .error e => .error e
    | .error e => .error e
  | fs, parent_path, (name, .file content) :: rest =>
    match writeFileW fs (parent_path ++ [name]) content with
    | .ok fs1 => web_create_files_and_dirs fs1 parent_path rest
    | .error e => .error e

/-- Observable events of a run: the two filesystem mutations and `print`. -/
inductive Ev where
  | mkdirEv : List String → Ev
  | writeEv : List String → String → Ev
  | printEv : String → Ev
deriving DecidableEq, Repr

/-- `true` for filesystem events, `false` for `print` events. -/
def evIsFsOp : Ev → Bool
  | .mkdirEv _ => true
  | .writeEv _ _ => true
  | .printEv _ => false

/-- Instrumented version of `create_files_and_dirs`: additionally returns, in
order, the filesystem events that completed successfully (a failing call
contributes no event). -/
def create_files_and_dirsT : FS → List String → List (String × Node) → List Ev × Except FS FS
  | fs, _, [] => ([], .ok fs)
  | fs, parent_path, (name, .dir sub) :: rest =>
    match mkdirEO fs (parent_path ++ [name]) with
    | .ok fs1 =>
      match create_files_and_dirsT fs1 (parent_path ++ [name]) sub with
      | (tr, .ok fs2) =>
        match create_files_and_dirsT fs2 parent_path rest with
        | (tr2, r) => (Ev.mkdirEv (parent_path ++ [name]) :: (tr ++ tr2), r)
      | (tr, .error e) => (Ev.mkdirEv (parent_path ++ [name]) :: tr, .error e)
    | .error e => ([], .error e)
  | fs, parent_path, (name, .file content) :: rest =>
    match writeFileW fs (parent_path ++ [name]) content with
    | .ok fs1 =>
      match create_files_and_dirsT fs1 parent_path rest with
      | (tr, r) => (Ev.writeEv (parent_path ++ [name]) content :: tr, r)
    | .error e => ([], .error e)

/-- Instrumented version of `web_create_files_and_dirs`, as
`create_files_and_dirsT`. -/
def web_create_files_and_dirsT : FS → List String → List (String × Node) → List Ev × Except FS FS
  | fs, _, [] => ([], .ok fs)
  | fs, parent_path, (name, .dir sub) :: rest =>
    match mkdirEO fs (parent_path ++ [name]) with
    | .ok fs1 =>
      match web_create_files_and_dirsT fs1 (parent_path ++ [name]) sub with
      | (tr, .ok fs2) =>
        match web_create_files_and_dirsT fs2 parent_path rest with
        | (tr2, r) => (Ev.mkdirEv (parent_path ++ [name]) :: (tr ++ tr2), r)
      | (tr, .error e) => (Ev.mkdirEv (parent_path ++ [name]) :: tr, .error e)
    | .error e => ([], .error e)
  | fs, parent_path, (name, .file content) :: rest =>
    match writeFileW fs (parent_path ++ [name]) content with
    | .ok fs1 =>
      match web_create_files_and_dirsT fs1 parent_path rest with
      | (tr, r) => (Ev.writeEv (parent_path ++ [name]) content :: tr, r)
    | .error e => ([], .error e)

/-- The full depth-first, insertion-order event sequence a complete traversal of
`items` under `parent_path` would perform. -/
def opsOf : List String → List (String × Node) → List Ev
  | _, [] => []
  | parent_path, (name, .dir sub) :: rest =>
    Ev.mkdirEv (parent_path ++ [name]) ::
      (opsOf (parent_path ++ [name]) sub ++ opsOf parent_path rest)
  | parent_path, (name, .file content) :: rest =>
    Ev.writeEv (parent_path ++ [name]) content :: opsOf parent_path rest

/-- The state effect of one successfully completed filesystem event. -/
def applyEv (fs : FS) : Ev → FS
  | .mkdirEv p => setObj fs p .dirO
  | .writeEv p c => setObj fs p (.fileO c)
  | .printEv _ => fs

/-- The filesystem state carried by a result, successful or not. -/
def resState : Except FS FS → FS
  | .ok s => s
  | .error s => s

/-- `true` iff the run completed without raising. -/
def isOkE : Except FS FS → Bool
  | .ok _ => true
  | .error _ => false

/-- First-match lookup of a key among the entries of one directory level. -/
def lookupNode : List (String × Node) → String → Option Node
  | [], _ => none
  | (n, v) :: rest, k => if n = k then some v else lookupNode rest k

/-- The node reached from `items` by following a non-empty key path. -/
def treeGet : List (String × Node) → List String → Option Node
  | [], _ => none
  | _ :: _, [] => none
  | (n, v) :: rest, k :: ks =>
    if n = k then
      match ks, v with
      | [], _ => some v
      | _ :: _, .dir sub => treeGet sub (ks)
      | _ :: _, .file _ => none
    else treeGet rest (k :: ks)

/-- All key paths of the tree (both directory and file nodes). -/
def keyPaths : List (String × Node) → List (List String)
  | [] => []
  | (name, .file _) :: rest => [name] :: keyPaths rest
  | (name, .dir sub) :: rest =>
    [name] :: ((keyPaths sub).map (name :: ·) ++ keyPaths rest)

/-- Well-formedness inherited from the Python `dict` origin of the literal: at
every level the keys are pairwise distinct. -/
def wfItemsB : List (String × Node) → Bool
  | [] => true
  | (name, .file _) :: rest => (lookupNode rest name).isNone && wfItemsB rest
  | (name, .dir sub) :: rest =>
    (lookupNode rest name).isNone && wfItemsB sub && wfItemsB rest

/-- The filesystem object a tree node should materialize to. -/
def expectedObj : Node → FSObj
  | .file c => .fileO c
  | .dir _ => .dirO

/-- `true` iff no pre-existing entry of `fs` collides, at a key path of `items`
under `parent_path`, with the kind of object the tree prescribes there (a
non-directory where a directory is expected, or a directory where a file is to
be written). -/
def collisionFreeB (fs : FS) : List String → List (String × Node) → Bool
  | _, [] => true
  | parent_path, (name, .file _) :: rest =>
    (match getObj fs (parent_path ++ [name]) with
     | some .dirO => false
     | _ => true)
      && collisionFreeB fs parent_path rest
  | parent_path, (name, .dir sub) :: rest =>
    (match getObj fs (parent_path ++ [name]) with
     | some (.fileO _) => false
     | _ => true)
      && collisionFreeB fs (parent_path ++ [name]) sub
      && collisionFreeB fs parent_path rest

/-- `Reaches fs pp items fs1 pp1 items1` holds when the evaluation of
`create_files_and_dirs fs pp items` performs (possibly deep inside) the
invocation `create_files_and_dirs fs1 pp1 items1`; the constructors follow the
evaluation order of the helper. -/
inductive Reaches : FS → List String → List (String × Node) →
    FS → List String → List (String × Node) → Prop where
  | here (fs : FS) (pp : List String) (items : List (String × Node)) :
      Reaches fs pp items fs pp items
  | child (fs fs1 fs' : FS) (pp pp' : List String) (name : String)
      (sub items' : List (String × Node)) (rest : List (String × Node)) :
      mkdirEO fs (pp ++ [name]) = .ok fs1 →
      Reaches fs1 (pp ++ [name]) sub fs' pp' items' →
      Reaches fs pp ((name, .dir sub) :: rest) fs' pp' items'
  | sibling_dir (fs fs1 fs2 fs' : FS) (pp pp' : List String) (name : String)
      (sub items' : List (String × Node)) (rest : List (String × Node)) :
      mkdirEO fs (pp ++ [name]) = .ok fs1 →
      create_files_and_dirs fs1 (pp ++ [name]) sub = .ok fs2 →
      Reaches fs2 pp rest fs' pp' items' →
      Reaches fs pp ((name, .dir sub) :: rest) fs' pp' items'
  | sibling_file (fs fs1 fs' : FS) (pp pp' : List String) (name content : String)
      (items' : List (String × Node)) (rest : List (String × Node)) :
      writeFileW fs (pp ++ [name]) content = .ok fs1 →
      Reaches fs1 pp rest fs' pp' items' →
      Reaches fs pp ((name, .file content) :: rest) fs' pp' items'

/-- The static tree literal `structure` of `admin.py` (lines 10‑218), in
insertion order. -/
def adminStructure : List (String × Node) := [
  (".env.example", .file ""),
  (".env.local", .file ""),
  (".eslintrc.js", .file ""),
  (".gitignore", .file ""),
  ("next.config.js", .file ""),
  ("package.json", .file ""),
  ("postcss.config.js", .file ""),
  ("tailwind.config.js", .file ""),
  ("tsconfig.json", .file ""),
  ("middleware.ts", .file ""),
  ("public", .dir [
    ("favicon.ico", .file ""),
    ("admin-logo.svg", .file ""),
    ("images", .dir [
      ("avatar-placeholder.png", .file ""),
      ("admin-bg.jpg", .file "")
    ])
  ]),
  ("src", .dir [
    ("app", .dir [
      ("globals.css", .file ""),
      ("layout.tsx", .file ""),
      ("loading.tsx", .file ""),
      ("not-found.tsx", .file ""),
      ("page.tsx", .file ""),
      ("auth", .dir [
        ("login", .dir [
          ("page.tsx", .file "")
        ]),
        ("layout.tsx", .file ""),
        ("forgot-password", .dir [
          ("page.tsx", .file "")
        ])
      ]),
      ("dashboard", .dir [
        ("page.tsx", .file ""),
        ("loading.tsx", .file ""),
        ("error.tsx", .file "")
      ]),
      ("content", .dir [
        ("page.tsx", .file ""),
        ("layout.tsx", .file ""),
        ("posts", .dir [
          ("page.tsx", .file ""),
          ("new", .dir [
            ("page.tsx", .file "")
          ]),
          ("[id]", .dir [
            ("page.tsx", .file ""),
            ("edit", .dir [
              ("page.tsx", .file "")
            ])
          ])
        ]),
        ("pages", .dir [
          ("page.tsx", .file ""),
          ("new", .dir [
            ("page.tsx", .file "")
          ]),
          ("[id]", .dir [
            ("page.tsx", .file ""),
            ("edit", .dir [
              ("page.tsx", .file "")
            ])
          ])
        ]),
        ("media", .dir [
          ("page.tsx", .file ""),
          ("upload", .dir [
            ("page.tsx", .file "")
          ])
        ]),
        ("categories", .dir [
          ("page.tsx", .file ""),
          ("new", .dir [
            ("page.tsx", .file "")
          ])
        ])
      ]),
      ("plugins", .dir [
        ("page.tsx", .file ""),
        ("layout.tsx", .file ""),
        ("marketplace", .dir [
          ("page.tsx", .file "")
        ]),
        ("installed", .dir [
          ("page.tsx", .file "")
        ]),
        ("[slug]", .dir [
          ("page.tsx", .file ""),
          ("settings", .dir [
            ("page.tsx", .file "")
          ])
        ])
      ]),
      ("users", .dir [
        ("page.tsx", .file ""),
        ("layout.tsx", .file ""),
        ("new", .dir [
          ("page.tsx", .file "")
        ]),
        ("roles", .dir [
          ("page.tsx", .file ""),
          ("[id]", .dir [
            ("page.tsx", .file "")
          ])
        ]),
        ("[id]", .dir [
          ("page.tsx", .file ""),
          ("edit", .dir [
            ("page.tsx", .file "")
          ])
        ])
      ]),
      ("settings", .dir [
        ("page.tsx", .file ""),
        ("layout.tsx", .file ""),
        ("general", .dir [
          ("page.tsx", .file "")
        ]),
        ("security", .dir [
          ("page.tsx", .file "")
        ]),
        ("email", .dir [
          ("page.tsx", .file "")
        ]),
        ("performance", .dir [
          ("page.tsx", .file "")
        ])
      ]),
      ("api", .dir [
        ("auth", .dir [
          ("login", .dir [
            ("route.ts", .file "")
          ]),
          ("me", .dir [
            ("route.ts", .file "")
          ])
        ]),
        ("content", .dir [
          ("posts", .dir [
            ("route.ts", .file ""),
            ("[id]", .dir [
              ("route.ts", .file "")
            ])
          ]),
          ("pages", .dir [
            ("route.ts", .file ""),
            ("[id]", .dir [
              ("route.ts", .file "")
            ])
          ]),
          ("media", .dir [
            ("route.ts", .file ""),
            ("upload", .dir [
              ("route.ts", .file "")
            ]),
            ("[id]", .dir [
              ("route.ts", .file "")
            ])
          ])
        ]),
        ("plugins", .dir [
          ("route.ts", .file ""),
          ("install", .dir [
            ("route.ts", .file "")
          ]),
          ("[slug]", .dir [
            ("route.ts", .file ""),
            ("activate", .dir [
              ("route.ts", .file "")
            ]),
            ("deactivate", .dir [
              ("route.ts", .file "")
            ]),
            ("configure", .dir [
              ("route.ts", .file "")
            ]),
            ("uninstall", .dir [
              ("route.ts", .file "")
            ])
          ])
        ]),
        ("users", .dir [
          ("route.ts", .file ""),
          ("[id]", .dir [
            ("route.ts", .file ""),
            ("roles", .dir [
              ("route.ts", .file "")
            ]),
            ("permissions", .dir [
              ("route.ts", .file "")
            ])
          ])
        ]),
        ("settings", .dir [
          ("route.ts", .file ""),
          ("general", .dir [
            ("route.ts", .file "")
          ]),
          ("security", .dir [
            ("route.ts", .file "")
          ]),
          ("email", .dir [
            ("route.ts", .file "")
          ])
        ])
      ])
    ]),
    ("components", .dir [
      ("layout", .dir [
        ("admin-header.tsx", .file ""),
        ("admin-sidebar.tsx", .file ""),
        ("breadcrumbs.tsx", .file ""),
        ("mobile-nav.tsx", .file ""),
        ("user-nav.tsx", .file "")
      ]),
      ("dashboard", .dir [
        ("stats-cards.tsx", .file ""),
        ("recent-activity.tsx", .file ""),
        ("plugin-status.tsx", .file ""),
        ("system-health.tsx", .file ""),
        ("quick-actions.tsx", .file "")
      ]),
      ("content", .dir [
        ("content-table.tsx", .file ""),
        ("content-form.tsx", .file ""),
        ("rich-text-editor.tsx", .file ""),
        ("media-library.tsx", .file ""),
        ("media-upload.tsx", .file ""),
        ("content-filters.tsx", .file "")
      ]),
      ("plugins", .dir [
        ("plugin-card.tsx", .file ""),
        ("plugin-table.tsx", .file ""),
        ("plugin-install-dialog.tsx", .file ""),
        ("plugin-settings-form.tsx", .file ""),
        ("plugin-marketplace.tsx", .file "")
      ]),
      ("users", .dir [
        ("user-table.tsx", .file ""),
        ("user-form.tsx", .file ""),
        ("role-form.tsx", .file ""),
        ("permissions-form.tsx", .file ""),
        ("user-filters.tsx", .file "")
      ]),
      ("settings", .dir [
        ("settings-form.tsx", .file ""),
        ("security-settings.tsx", .file ""),
        ("email-settings.tsx", .file ""),
        ("performance-settings.tsx", .file "")
      ]),
      ("common", .dir [
        ("data-table.tsx", .file ""),
        ("loading-spinner.tsx", .file ""),
        ("empty-state.tsx", .file ""),
        ("error-boundary.tsx", .file ""),
        ("confirmation-dialog.tsx", .file ""),
        ("search-input.tsx", .file "")
      ])
    ]),
    ("hooks", .dir [
      ("use-auth.ts", .file ""),
      ("use-plugins.ts", .file ""),
      ("use-content.ts", .file ""),
      ("use-users.ts", .file ""),
      ("use-settings.ts", .file ""),
      ("use-toast.ts", .file ""),
      ("use-local-storage.ts", .file "")
    ]),
    ("lib", .dir [
      ("auth.ts", .file ""),
      ("api.ts", .file ""),
      ("database.ts", .file ""),
      ("plugins.ts", .file ""),
      ("utils.ts", .file ""),
      ("validations.ts", .file ""),
      ("constants.ts", .file ""),
      ("middleware.ts", .file "")
    ]),
    ("providers", .dir [
      ("auth-provider.tsx", .file ""),
      ("plugin-provider.tsx", .file ""),
      ("toast-provider.tsx", .file ""),
      ("query-provider.tsx", .file "")
    ]),
    ("styles", .dir [
      ("globals.css", .file ""),
      ("components.css", .file ""),
      ("admin.css", .file "")
    ]),
    ("types", .dir [
      ("auth.ts", .file ""),
      ("content.ts", .file ""),
      ("plugins.ts", .file ""),
      ("users.ts", .file ""),
      ("settings.ts", .file ""),
      ("api.ts", .file "")
    ])
  ])
]

/-- The static tree literal `structure` of `web.py` (lines 10‑134), in
insertion order. -/
def webStructure : List (String × Node) := [
  (".env.example", .file ""),
  (".env.local", .file ""),
  (".eslintrc.js", .file ""),
  (".gitignore", .file ""),
  ("next.config.js", .file ""),
  ("package.json", .file ""),
  ("postcss.config.js", .file ""),
  ("tailwind.config.js", .file ""),
  ("tsconfig.json", .file ""),
  ("middleware.ts", .file ""),
  ("public", .dir [
    ("favicon.ico", .file ""),
    ("logo.svg", .file ""),
    ("og-image.png", .file ""),
    ("images", .dir [
      ("hero-bg.jpg", .file ""),
      ("placeholder.png", .file "")
    ])
  ]),
  ("src", .dir [
    ("app", .dir [
      ("globals.css", .file ""),
      ("layout.tsx", .file ""),
      ("loading.tsx", .file ""),
      ("not-found.tsx", .file ""),
      ("page.tsx", .file ""),
      ("about", .dir [
        ("page.tsx", .file "")
      ]),
      ("contact", .dir [
        ("page.tsx", .file "")
      ]),
      ("blog", .dir [
        ("page.tsx", .file ""),
        ("[slug]", .dir [
          ("page.tsx", .file "")
        ]),
        ("category", .dir [
          ("[category]", .dir [
            ("page.tsx", .file "")
          ])
        ])
      ]),
      ("auth", .dir [
        ("login", .dir [
          ("page.tsx", .file "")
        ]),
        ("register", .dir [
          ("page.tsx", .file "")
        ]),
        ("forgot-password", .dir [
          ("page.tsx", .file "")
        ])
      ]),
      ("account", .dir [
        ("page.tsx", .file ""),
        ("profile", .dir [
          ("page.tsx", .file "")
        ]),
        ("settings", .dir [
          ("page.tsx", .file "")
        ])
      ]),
      ("api", .dir [
        ("auth", .dir [
          ("login", .dir [
            ("route.ts", .file "")
          ]),
          ("register", .dir [
            ("route.ts", .file "")
          ]),
          ("me", .dir [
            ("route.ts", .file "")
          ])
        ]),
        ("content", .dir [
          ("posts", .dir [
            ("route.ts", .file ""),
            ("[slug]", .dir [
              ("route.ts", .file "")
            ])
          ]),
          ("pages", .dir [
            ("route.ts", .file ""),
            ("[slug]", .dir [
              ("route.ts", .file "")
            ])
          ])
        ]),
        ("contact", .dir [
          ("route.ts", .file "")
        ]),
        ("plugins", .dir [
          ("[plugin]", .dir [
            ("[...path]", .dir [
              ("route.ts", .file "")
            ])
          ])
        ])
      ])
    ]),
    ("components", .dir [
      ("layout", .dir [
        ("header.tsx", .file ""),
        ("footer.tsx", .file ""),
        ("navigation.tsx", .file ""),
        ("mobile-nav.tsx", .file "")
      ]),
      ("sections", .dir [
        ("hero.tsx", .file ""),
        ("features.tsx", .file ""),
        ("blog-preview.tsx", .file "")
      ]),
      ("blog", .dir [
        ("post-card.tsx", .file ""),
        ("post-content.tsx", .file ""),
        ("category-filter.tsx", .file "")
      ]),
      ("auth", .dir [
        ("login-form.tsx", .file ""),
        ("register-form.tsx", .file ""),
        ("auth-guard.tsx", .file "")
      ]),
      ("forms", .dir [
        ("contact-form.tsx", .file "")
      ]),
      ("plugins", .dir [
        ("plugin-renderer.tsx", .file "")
      ]),
      ("common", .dir [
        ("seo.tsx", .file ""),
        ("breadcrumbs.tsx", .file ""),
        ("pagination.tsx", .file ""),
        ("loading-spinner.tsx", .file "")
      ])
    ]),
    ("hooks", .dir [
      ("use-auth.ts", .file ""),
      ("use-posts.ts", .file ""),
      ("use-plugins.ts", .file ""),
      ("use-local-storage.ts", .file "")
    ]),
    ("lib", .dir [
      ("auth.ts", .file ""),
      ("api.ts", .file ""),
      ("utils.ts", .file ""),
      ("validations.ts", .file ""),
      ("constants.ts", .file ""),
      ("seo.ts", .file ""),
      ("plugins.ts", .file "")
    ]),
    ("providers", .dir [
      ("auth-provider.tsx", .file ""),
      ("plugin-provider.tsx", .file ""),
      ("toast-provider.tsx", .file "")
    ]),
    ("styles", .dir [
      ("globals.css", .file ""),
      ("components.css", .file "")
    ]),
    ("types", .dir [
      ("auth.ts", .file ""),
      ("content.ts", .file ""),
      ("plugins.ts", .file ""),
      ("api.ts", .file "")
    ])
  ])
]

/-- The fixed base directory `Path("apps/admin")` of `admin.py`. -/
def adminBase : List String := ["apps", "admin"]

/-- The fixed base directory `Path("apps/web")` of `web.py`. -/
def webBase : List String := ["apps", "web"]

/-- `create_structure()` of `admin.py`: create the base directory with
`mkdir(parents=True, exist_ok=True)`, materialize `adminStructure` under it with
the helper, then print the completion line.  Returns the ordered event trace of
the helper (followed by the print on success) together with the result. -/
def create_structure (fs : FS) : List Ev × Except FS FS :=
  match mkdirParentsEO fs [] adminBase with
  | .ok fs1 =>
    match create_files_and_dirsT fs1 adminBase adminStructure with
    | (tr, .ok fs2) =>
      (tr ++ [Ev.printEv "Directory structure created successfully at apps/admin"], .ok fs2)
    | (tr, .error e) => (tr, .error e)
  | .error e => ([], .error e)

/-- `create_structure()` of `web.py`, as `create_structure`. -/
def web_create_structure (fs : FS) : List Ev × Except FS FS :=
  match mkdirParentsEO fs [] webBase with
  | .ok fs1 =>
    match web_create_files_and_dirsT fs1 webBase webStructure with
    | (tr, .ok fs2) =>
      (tr ++ [Ev.printEv "Directory structure created successfully at apps/web"], .ok fs2)
    | (tr, .error e) => (tr, .error e)
  | .error e => ([], .error e)


/-! ### Basic lemmas about the filesystem model -/

theorem lookupFS_setObj_self (fs : FS) (p : List String) (v : FSObj) :
    lookupFS (setObj fs p v) p = some v := by
  induction fs with
  | nil => simp [setObj, lookupFS]
  | cons hd tl ih =>
    obtain ⟨a, w⟩ := hd
    by_cases h : a = p
    · simp [setObj, h, lookupFS]
    · simp [setObj, h, lookupFS, ih]

theorem lookupFS_setObj_ne (fs : FS) (p q : List String) (v : FSObj) (h : q ≠ p) :
    lookupFS (setObj fs p v) q = lookupFS fs q := by
  induction fs with
  | nil => simp [setObj, lookupFS, Ne.symm h]
  | cons hd tl ih =>
    obtain ⟨a, w⟩ := hd
    by_cases hap : a = p
    · subst hap
      simp [setObj, lookupFS, Ne.symm h]
    · by_cases haq : a = q
      · have hqp : ¬q = p := haq ▸ hap
        simp [setObj, lookupFS, hap, haq, hqp]
      · simp [setObj, lookupFS, hap, haq, ih]

theorem setObj_id (fs : FS) (p : List String) (v : FSObj) (h : lookupFS fs p = some v) :
    setObj fs p v = fs := by
  induction fs with
  | nil => simp [lookupFS] at h
  | cons hd tl ih =>
    obtain ⟨a, w⟩ := hd
    by_cases hap : a = p
    · subst hap
      simp [lookupFS] at h
      simp [setObj, h]
    · simp [lookupFS, hap] at h
      simp [setObj, hap, ih h]

theorem getObj_setObj_self (fs : FS) (p : List String) (v : FSObj) (hp : p ≠ []) :
    getObj (setObj fs p v) p = some v := by
  simp [getObj, hp, lookupFS_setObj_self]

theorem getObj_setObj_ne (fs : FS) (p q : List String) (v : FSObj) (h : q ≠ p) :
    getObj (setObj fs p v) q = getObj fs q := by
  by_cases hq : q = []
  · subst hq; simp [getObj]
  · simp [getObj, hq, lookupFS_setObj_ne _ _ _ _ h]

theorem getObj_nil (fs : FS) : getObj fs [] = some .dirO := by simp [getObj]

/-! ### Lemmas about the primitive operations -/

theorem mkdirEO_ok_self {fs fs' : FS} {p : List String} (h : mkdirEO fs p = .ok fs') :
    getObj fs' p = some .dirO := by
  unfold mkdirEO at h
  split at h
  · next hg => simp at h; subst h; exact hg
  · next => simp at h
  · next hg =>
      split at h
      · next hpar =>
          simp at h; subst h
          have hp : p ≠ [] := by
            intro he; subst he; simp [getObj] at hg
          exact getObj_setObj_self _ _ _ hp
      · next => simp at h

theorem mkdirEO_ok_frame {fs fs' : FS} {p : List String} (h : mkdirEO fs p = .ok fs')
    (q : List String) (hq : q ≠ p) : getObj fs' q = getObj fs q := by
  unfold mkdirEO at h
  split at h
  · next => simp at h; subst h; rfl
  · next => simp at h
  · next =>
      split at h
      · next => simp at h; subst h; exact getObj_setObj_ne _ _ _ _ hq
      · next => simp at h

theorem mkdirEO_error_state {fs e : FS} {p : List String} (h : mkdirEO fs p = .error e) :
    e = fs := by
  unfold mkdirEO at h
  split at h
  · next => simp at h
  · next => simp at h; exact h.symm
  · next =>
      split at h
      · next => simp at h
      · next => simp at h; exact h.symm

theorem mkdirEO_ok_dir_mono {fs fs' : FS} {p : List String} (h : mkdirEO fs p = .ok fs')
    (q : List String) (hq : getObj fs q = some .dirO) : getObj fs' q = some .dirO := by
  by_cases hqp : q = p
  · subst hqp; exact mkdirEO_ok_self h
  · rw [mkdirEO_ok_frame h q hqp]; exact hq

theorem writeFileW_ok_self {fs fs' : FS} {p : List String} {c : String}
    (h : writeFileW fs p c = .ok fs') : getObj fs' p = some (.fileO c) := by
  unfold writeFileW at h
  split at h
  · next => simp at h
  · next hg =>
      simp at h; subst h
      have hp : p ≠ [] := by
        intro he; subst he; simp [getObj] at hg
      exact getObj_setObj_self _ _ _ hp
  · next hg =>
      split at h
      · next =>
          simp at h; subst h
          have hp : p ≠ [] := by
            intro he; subst he; simp [getObj] at hg
          exact getObj_setObj_self _ _ _ hp
      · next => simp at h

theorem writeFileW_ok_frame {fs fs' : FS} {p : List String} {c : String}
    (h : writeFileW fs p c = .ok fs') (q : List String) (hq : q ≠ p) :
    getObj fs' q = getObj fs q := by
  unfold writeFileW at h
  split at h
  · next => simp at h
  · next => simp at h; subst h; exact getObj_setObj_ne _ _ _ _ hq
  · next =>
      split at h
      · next => simp at h; subst h; exact getObj_setObj_ne _ _ _ _ hq
      · next => simp at h

theorem writeFileW_error_state {fs e : FS} {p : List String} {c : String}
    (h : writeFileW fs p c = .error e) : e = fs := by
  unfold writeFileW at h
  split at h
  · next => simp at h; exact h.symm
  · next => simp at h
  · next =>
      split at h
      · next => simp at h
      · next => simp at h; exact h.symm

theorem writeFileW_ok_not_dir {fs fs' : FS} {p : List String} {c : String}
    (h : writeFileW fs p c = .ok fs') : getObj fs p ≠ some .dirO := by
  intro hg
  unfold writeFileW at h
  rw [hg] at h
  simp at h

theorem writeFileW_ok_dir_mono {fs fs' : FS} {p : List String} {c : String}
    (h : writeFileW fs p c = .ok fs') (q : List String) (hq : getObj fs q = some .dirO) :
    getObj fs' q = some .dirO := by
  by_cases hqp : q = p
  · subst hqp; exact absurd hq (writeFileW_ok_not_dir h)
  · rw [writeFileW_ok_frame h q hqp]; exact hq


/-! ### Lemmas about tree key paths -/

theorem lookupNode_cons_isSome {rest : List (String × Node)} {k : String} (name : String)
    (v : Node) (h : (lookupNode rest k).isSome = true) :
    (lookupNode ((name, v) :: rest) k).isSome = true := by
  by_cases hn : name = k <;> simp [lookupNode, hn, h]

theorem keyPaths_head : ∀ (items : List (String × Node)) (ks : List String),
    ks ∈ keyPaths items → ∃ k t, ks = k :: t ∧ (lookupNode items k).isSome = true := by
  intro items
  induction items using keyPaths.induct with
  | case1 => intro ks h; simp [keyPaths] at h
  | case2 name c rest ih =>
    intro ks h
    simp only [keyPaths, List.mem_cons] at h
    rcases h with h | h
    · exact ⟨name, [], h, by simp [lookupNode]⟩
    · obtain ⟨k, t, rfl, hk⟩ := ih ks h
      exact ⟨k, t, rfl, lookupNode_cons_isSome _ _ hk⟩
  | case3 name sub rest ihsub ihrest =>
    intro ks h
    simp only [keyPaths, List.mem_cons, List.mem_append, List.mem_map] at h
    rcases h with h | ⟨ks', hks', rfl⟩ | h
    · exact ⟨name, [], h, by simp [lookupNode]⟩
    · exact ⟨name, ks', rfl, by simp [lookupNode]⟩
    · obtain ⟨k, t, rfl, hk⟩ := ihrest ks h
      exact ⟨k, t, rfl, lookupNode_cons_isSome _ _ hk⟩

/-! ### Frame property of the materializer -/

theorem cfad_frame : ∀ (fs : FS) (pp : List String) (items : List (String × Node)) (q : List String),
    (∀ ks ∈ keyPaths items, q ≠ pp ++ ks) →
    getObj (resState (create_files_and_dirs fs pp items)) q = getObj fs q := by
  intro fs pp items
  induction fs, pp, items using create_files_and_dirs.induct with
  | case1 fs pp => intro q hq; simp [create_files_and_dirs, resState]
  | case2 fs pp name sub rest fs1 h1 fs2 h2 ihs ihr =>
    intro q hq
    have hq1 : q ≠ pp ++ [name] := hq [name] (by simp [keyPaths])
    have hqs : ∀ ks ∈ keyPaths sub, q ≠ (pp ++ [name]) ++ ks := by
      intro ks hks
      have hm : name :: ks ∈ keyPaths ((name, Node.dir sub) :: rest) := by
        simp only [keyPaths, List.mem_cons, List.mem_append, List.mem_map]
        exact Or.inr (Or.inl ⟨ks, hks, rfl⟩)
      simpa [List.append_assoc] using hq (name :: ks) hm
    have hqr : ∀ ks ∈ keyPaths rest, q ≠ pp ++ ks := by
      intro ks hks
      refine hq ks ?_
      simp only [keyPaths, List.mem_cons, List.mem_append, List.mem_map]
      exact Or.inr (Or.inr hks)
    simp only [create_files_and_dirs, h1, h2]
    have e2 := ihs q hqs
    rw [h2] at e2
    simp only [resState] at e2
    rw [ihr q hqr, e2, mkdirEO_ok_frame h1 q hq1]
  | case3 fs pp name sub rest fs1 h1 e he ihs =>
    intro q hq
    have hq1 : q ≠ pp ++ [name] := hq [name] (by simp [keyPaths])
    have hqs : ∀ ks ∈ keyPaths sub, q ≠ (pp ++ [name]) ++ ks := by
      intro ks hks
      have hm : name :: ks ∈ keyPaths ((name, Node.dir sub) :: rest) := by
        simp only [keyPaths, List.mem_cons, List.mem_append, List.mem_map]
        exact Or.inr (Or.inl ⟨ks, hks, rfl⟩)
      simpa [List.append_assoc] using hq (name :: ks) hm
    simp only [create_files_and_dirs, h1, he]
    have e2 := ihs q hqs
    rw [he] at e2
    simp only [resState] at e2
    rw [resState, e2, mkdirEO_ok_frame h1 q hq1]
  | case4 fs pp name sub rest e he =>
    intro q hq
    have he' := mkdirEO_error_state he
    subst he'
    simp only [create_files_and_dirs, he, resState]
  | case5 fs pp name content rest fs1 h1 ihr =>
    intro q hq
    have hq1 : q ≠ pp ++ [name] := hq [name] (by simp [keyPaths])
    have hqr : ∀ ks ∈ keyPaths rest, q ≠ pp ++ ks := by
      intro ks hks
      refine hq ks ?_
      simp only [keyPaths, List.mem_cons]
      exact Or.inr hks
    simp only [create_files_and_dirs, h1]
    rw [ihr q hqr, writeFileW_ok_frame h1 q hq1]
  | case6 fs pp name content rest e he =>
    intro q hq
    have he' := writeFileW_error_state he
    subst he'
    simp only [create_files_and_dirs, he, resState]


/-! ### Well-formedness and tree lookup helpers -/

theorem wf_cons_file {name : String} {c : String} {rest : List (String × Node)}
    (h : wfItemsB ((name, Node.file c) :: rest) = true) :
    lookupNode rest name = none ∧ wfItemsB rest = true := by
  simp only [wfItemsB, Bool.and_eq_true, Option.isNone_iff_eq_none] at h
  exact h

theorem wf_cons_dir {name : String} {sub rest : List (String × Node)}
    (h : wfItemsB ((name, Node.dir sub) :: rest) = true) :
    lookupNode rest name = none ∧ wfItemsB sub = true ∧ wfItemsB rest = true := by
  simp only [wfItemsB, Bool.and_eq_true, Option.isNone_iff_eq_none] at h
  exact ⟨h.1.1, h.1.2, h.2⟩

theorem treeGet_nil_key (items : List (String × Node)) : treeGet items [] = none := by
  cases items with
  | nil => simp [treeGet]
  | cons hd rest => obtain ⟨a, v⟩ := hd; simp [treeGet]

theorem treeGet_cons_of_ne {name : String} {v : Node} {rest : List (String × Node)}
    {k : String} {t : List String} (hk : ¬name = k) :
    treeGet ((name, v) :: rest) (k :: t) = treeGet rest (k :: t) := by
  rw [treeGet.eq_def]
  simp [hk]

theorem treeGet_key_isSome : ∀ (items : List (String × Node)) (k : String) (t : List String)
    (n : Node), treeGet items (k :: t) = some n → (lookupNode items k).isSome = true := by
  intro items
  induction items with
  | nil => intro k t n h; simp [treeGet] at h
  | cons hd rest ih =>
    obtain ⟨a, v⟩ := hd
    intro k t n h
    by_cases hak : a = k
    · simp [lookupNode, hak]
    · rw [treeGet_cons_of_ne hak] at h
      simp [lookupNode, hak]
      exact ih _ _ _ h

theorem append_cons_eq (pp : List String) (a : String) (t : List String) :
    pp ++ a :: t = (pp ++ [a]) ++ t := by simp

/-- Key paths of `rest` never collide, under `pp`, with the path of a head entry
whose key does not occur in `rest`. -/
theorem keyPaths_no_collision {rest : List (String × Node)} {name : String}
    (hnod : lookupNode rest name = none) (pp : List String) (t : List String) :
    ∀ ks ∈ keyPaths rest, pp ++ name :: t ≠ pp ++ ks := by
  intro ks hks heq
  obtain ⟨k, t', rfl, hk⟩ := keyPaths_head rest ks hks
  have h2 : name :: t = k :: t' := by
    exact List.append_cancel_left heq
  have : name = k := (List.cons.injEq _ _ _ _ ▸ h2).1
  subst this
  rw [hnod] at hk
  simp at hk

/-! ### Directories are never destroyed by a run -/

theorem cfad_dir_mono : ∀ (fs : FS) (pp : List String) (items : List (String × Node))
    (q : List String), getObj fs q = some .dirO →
    getObj (resState (create_files_and_dirs fs pp items)) q = some .dirO := by
  intro fs pp items
  induction fs, pp, items using create_files_and_dirs.induct with
  | case1 fs pp => intro q h; simpa [create_files_and_dirs, resState] using h
  | case2 fs pp name sub rest fs1 h1 fs2 h2 ihs ihr =>
    intro q h
    simp only [create_files_and_dirs, h1, h2]
    have ha := ihs q (mkdirEO_ok_dir_mono h1 q h)
    rw [h2] at ha
    simp only [resState] at ha
    exact ihr q ha
  | case3 fs pp name sub rest fs1 h1 e he ihs =>
    intro q h
    simp only [create_files_and_dirs, h1, he]
    have ha := ihs q (mkdirEO_ok_dir_mono h1 q h)
    rw [he] at ha
    simpa only [resState] using ha
  | case4 fs pp name sub rest e he =>
    intro q h
    have he' := mkdirEO_error_state he
    subst he'
    simpa only [create_files_and_dirs, he, resState] using h
  | case5 fs pp name content rest fs1 h1 ihr =>
    intro q h
    simp only [create_files_and_dirs, h1]
    exact ihr q (writeFileW_ok_dir_mono h1 q h)
  | case6 fs pp name content rest e he =>
    intro q h
    have he' := writeFileW_error_state he
    subst he'
    simpa only [create_files_and_dirs, he, resState] using h

/-! ### Correctness of a successful run -/

theorem cfad_correct : ∀ (fs : FS) (pp : List String) (items : List (String × Node)),
    getObj fs pp = some .dirO → wfItemsB items = true →
    ∀ fs', create_files_and_dirs fs pp items = .ok fs' →
    ∀ ks n, treeGet items ks = some n → getObj fs' (pp ++ ks) = some (expectedObj n) := by
  intro fs pp items
  induction fs, pp, items using create_files_and_dirs.induct with
  | case1 fs pp =>
    intro _ _ fs' h ks n hks
    simp [treeGet] at hks
  | case2 fs pp name sub rest fs1 h1 fs2 h2 ihs ihr =>
    intro hdir hwf fs' h ks n hks
    obtain ⟨hnod, hwfs, hwfr⟩ := wf_cons_dir hwf
    simp only [create_files_and_dirs, h1, h2] at h
    have hcur1 : getObj fs1 (pp ++ [name]) = some .dirO := mkdirEO_ok_self h1
    have hcur2 : getObj fs2 (pp ++ [name]) = some .dirO := by
      have := cfad_dir_mono fs1 (pp ++ [name]) sub (pp ++ [name]) hcur1
      rw [h2] at this
      simpa only [resState] using this
    have hpp2 : getObj fs2 pp = some .dirO := by
      have := cfad_dir_mono fs1 (pp ++ [name]) sub pp (mkdirEO_ok_dir_mono h1 pp hdir)
      rw [h2] at this
      simpa only [resState] using this
    cases ks with
    | nil => rw [treeGet_nil_key] at hks; cases hks
    | cons k t =>
      by_cases hk : name = k
      · subst hk
        cases t with
        | nil =>
          simp [treeGet] at hks
          subst hks
          have hfr := cfad_frame fs2 pp rest (pp ++ [name])
            (keyPaths_no_collision hnod pp [])
          rw [h] at hfr
          simp only [resState] at hfr
          simpa [expectedObj] using hfr.trans hcur2
        | cons t0 t1 =>
          simp [treeGet] at hks
          have hsub := ihs hcur1 hwfs fs2 h2 (t0 :: t1) n hks
          have hfr := cfad_frame fs2 pp rest (pp ++ [name] ++ (t0 :: t1))
            (by
              intro ks hks2
              rw [← append_cons_eq]
              exact keyPaths_no_collision hnod pp (t0 :: t1) ks hks2)
          rw [h] at hfr
          simp only [resState] at hfr
          rw [append_cons_eq]
          exact hfr.trans hsub
      · rw [treeGet_cons_of_ne hk] at hks
        exact ihr hpp2 hwfr fs' h (k :: t) n hks
  | case3 fs pp name sub rest fs1 h1 e he ihs =>
    intro _ _ fs' h
    simp only [create_files_and_dirs, h1, he] at h
    simp at h
  | case4 fs pp name sub rest e he =>
    intro _ _ fs' h
    simp only [create_files_and_dirs, he] at h
    simp at h
  | case5 fs pp name content rest fs1 h1 ihr =>
    intro hdir hwf fs' h ks n hks
    obtain ⟨hnod, hwfr⟩ := wf_cons_file hwf
    simp only [create_files_and_dirs, h1] at h
    have hpp1 : getObj fs1 pp = some .dirO := writeFileW_ok_dir_mono h1 pp hdir
    cases ks with
    | nil => rw [treeGet_nil_key] at hks; cases hks
    | cons k t =>
      by_cases hk : name = k
      · subst hk
        cases t with
        | nil =>
          simp [treeGet] at hks
          subst hks
          have hfile : getObj fs1 (pp ++ [name]) = some (.fileO content) :=
            writeFileW_ok_self h1
          have hfr := cfad_frame fs1 pp rest (pp ++ [name])
            (keyPaths_no_collision hnod pp [])
          rw [h] at hfr
          simp only [resState] at hfr
          simpa [expectedObj] using hfr.trans hfile
        | cons t0 t1 =>
          simp [treeGet] at hks
      · rw [treeGet_cons_of_ne hk] at hks
        exact ihr hpp1 hwfr fs' h (k :: t) n hks
  | case6 fs pp name content rest e he =>
    intro _ _ fs' h
    simp only [create_files_and_dirs, he] at h
    simp at h


/-! ### A run on an already-materialized tree changes nothing -/

theorem cfad_self : ∀ (items : List (String × Node)) (fs : FS) (pp : List String),
    wfItemsB items = true →
    (∀ ks n, treeGet items ks = some n → getObj fs (pp ++ ks) = some (expectedObj n)) →
    create_files_and_dirs fs pp items = .ok fs := by
  intro items
  induction items using wfItemsB.induct with
  | case1 => intro fs pp _ _; simp [create_files_and_dirs]
  | case2 name c rest ih =>
    intro fs pp hwf hobj
    obtain ⟨hnod, hwfr⟩ := wf_cons_file hwf
    have hfile : getObj fs (pp ++ [name]) = some (.fileO c) := by
      have h0 := hobj [name] (.file c) (by rw [treeGet.eq_def]; simp)
      simpa [expectedObj] using h0
    have hplen : (pp ++ [name]) ≠ [] := by simp
    have hlk : lookupFS fs (pp ++ [name]) = some (.fileO c) := by
      simpa [getObj, hplen] using hfile
    have hw : writeFileW fs (pp ++ [name]) c = .ok fs := by
      unfold writeFileW
      simp only [hfile]
      rw [setObj_id _ _ _ hlk]
    have hrest : create_files_and_dirs fs pp rest = .ok fs := by
      refine ih fs pp hwfr ?_
      intro ks n hks
      cases ks with
      | nil => rw [treeGet_nil_key] at hks; cases hks
      | cons k t =>
        have hk : ¬name = k := by
          intro he
          subst he
          have hs := treeGet_key_isSome rest name t n hks
          rw [hnod] at hs
          simp at hs
        exact hobj (k :: t) n (by rw [treeGet_cons_of_ne hk]; exact hks)
    simp only [create_files_and_dirs, hw, hrest]
  | case3 name sub rest ihsub ihrest =>
    intro fs pp hwf hobj
    obtain ⟨hnod, hwfs, hwfr⟩ := wf_cons_dir hwf
    have hdir : getObj fs (pp ++ [name]) = some .dirO := by
      have h0 := hobj [name] (.dir sub) (by rw [treeGet.eq_def]; simp)
      simpa [expectedObj] using h0
    have hmk : mkdirEO fs (pp ++ [name]) = .ok fs := by
      unfold mkdirEO
      simp only [hdir]
    have hsub : create_files_and_dirs fs (pp ++ [name]) sub = .ok fs := by
      refine ihsub fs (pp ++ [name]) hwfs ?_
      intro ks n hks
      cases ks with
      | nil => rw [treeGet_nil_key] at hks; cases hks
      | cons k t =>
        have h0 := hobj (name :: k :: t) n (by rw [treeGet.eq_def]; simpa using hks)
        rw [append_cons_eq] at h0
        exact h0
    have hrest : create_files_and_dirs fs pp rest = .ok fs := by
      refine ihrest fs pp hwfr ?_
      intro ks n hks
      cases ks with
      | nil => rw [treeGet_nil_key] at hks; cases hks
      | cons k t =>
        have hk : ¬name = k := by
          intro he
          subst he
          have hs := treeGet_key_isSome rest name t n hks
          rw [hnod] at hs
          simp at hs
        exact hobj (k :: t) n (by rw [treeGet_cons_of_ne hk]; exact hks)
    simp only [create_files_and_dirs, hmk, hsub, hrest]

/-! ### The instrumented helper agrees with the plain helper -/

theorem cfadT_snd : ∀ (fs : FS) (pp : List String) (items : List (String × Node)),
    (create_files_and_dirsT fs pp items).2 = create_files_and_dirs fs pp items := by
  intro fs pp items
  induction fs, pp, items using create_files_and_dirsT.induct with
  | case1 fs pp => simp [create_files_and_dirsT, create_files_and_dirs]
  | case2 fs pp name sub rest fs1 hmk tr fs2 hsub tr2 r hrest ihs ihr =>
    rw [hsub] at ihs
    rw [hrest] at ihr
    simp only [create_files_and_dirsT, create_files_and_dirs, hmk, hsub, hrest, ← ihs, ← ihr]
  | case3 fs pp name sub rest fs1 hmk tr e hsub ihs =>
    rw [hsub] at ihs
    simp only [create_files_and_dirsT, create_files_and_dirs, hmk, hsub, ← ihs]
  | case4 fs pp name sub rest e hmk =>
    simp only [create_files_and_dirsT, create_files_and_dirs, hmk]
  | case5 fs pp name content rest fs1 hw tr2 r hrest ihr =>
    rw [hrest] at ihr
    simp only [create_files_and_dirsT, create_files_and_dirs, hw, hrest, ← ihr]
  | case6 fs pp name content rest e hw =>
    simp only [create_files_and_dirsT, create_files_and_dirs, hw]

/-! ### The reached state is exactly the effect of the emitted events -/

theorem mkdirEO_ok_eq_setObj {fs fs' : FS} {p : List String} (hp : p ≠ [])
    (h : mkdirEO fs p = .ok fs') : fs' = setObj fs p .dirO := by
  unfold mkdirEO at h
  split at h
  · next hg =>
      simp at h
      subst h
      exact (setObj_id _ _ _ (by simpa [getObj, hp] using hg)).symm
  · next => simp at h
  · next =>
      split at h
      · next => simp at h; exact h.symm
      · next => simp at h

theorem writeFileW_ok_eq_setObj {fs fs' : FS} {p : List String} {c : String}
    (h : writeFileW fs p c = .ok fs') : fs' = setObj fs p (.fileO c) := by
  unfold writeFileW at h
  split at h
  · next => simp at h
  · next => simp at h; exact h.symm
  · next =>
      split at h
      · next => simp at h; exact h.symm
      · next => simp at h

theorem cfadT_state : ∀ (fs : FS) (pp : List String) (items : List (String × Node)),
    resState (create_files_and_dirsT fs pp items).2 =
      List.foldl applyEv fs (create_files_and_dirsT fs pp items).1 := by
  intro fs pp items
  induction fs, pp, items using create_files_and_dirsT.induct with
  | case1 fs pp => simp [create_files_and_dirsT, resState]
  | case2 fs pp name sub rest fs1 hmk tr fs2 hsub tr2 r hrest ihs ihr =>
    rw [hsub] at ihs
    rw [hrest] at ihr
    simp only [resState] at ihs
    have hfs1 : applyEv fs (Ev.mkdirEv (pp ++ [name])) = fs1 := by
      simp only [applyEv]
      exact (mkdirEO_ok_eq_setObj (by simp) hmk).symm
    simp only [create_files_and_dirsT, hmk, hsub, hrest]
    simp only [List.foldl_cons, List.foldl_append, hfs1, ← ihs]
    exact ihr
  | case3 fs pp name sub rest fs1 hmk tr e hsub ihs =>
    rw [hsub] at ihs
    have hfs1 : applyEv fs (Ev.mkdirEv (pp ++ [name])) = fs1 := by
      simp only [applyEv]
      exact (mkdirEO_ok_eq_setObj (by simp) hmk).symm
    simp only [create_files_and_dirsT, hmk, hsub]
    simp only [List.foldl_cons, hfs1]
    exact ihs
  | case4 fs pp name sub rest e hmk =>
    have he := mkdirEO_error_state hmk
    subst he
    simp [create_files_and_dirsT, hmk, resState]
  | case5 fs pp name content rest fs1 hw tr2 r hrest ihr =>
    rw [hrest] at ihr
    have hfs1 : applyEv fs (Ev.writeEv (pp ++ [name]) content) = fs1 := by
      simp only [applyEv]
      exact (writeFileW_ok_eq_setObj hw).symm
    simp only [create_files_and_dirsT, hw, hrest]
    simp only [List.foldl_cons, hfs1]
    exact ihr
  | case6 fs pp name content rest e hw =>
    have he := writeFileW_error_state hw
    subst he
    simp [create_files_and_dirsT, hw, resState]

/-! ### The emitted events form a prefix of the full depth-first schedule -/

theorem cfadT_trace : ∀ (fs : FS) (pp : List String) (items : List (String × Node)),
    ∃ r2, opsOf pp items = (create_files_and_dirsT fs pp items).1 ++ r2 ∧
      (isOkE (create_files_and_dirsT fs pp items).2 = true ↔ r2 = []) := by
  intro fs pp items
  induction fs, pp, items using create_files_and_dirsT.induct with
  | case1 fs pp => exact ⟨[], by simp [opsOf, create_files_and_dirsT, isOkE]⟩
  | case2 fs pp name sub rest fs1 hmk tr fs2 hsub tr2 r hrest ihs ihr =>
    obtain ⟨r2s, hs1, hs2⟩ := ihs
    obtain ⟨r2r, hr1, hr2⟩ := ihr
    rw [hsub] at hs1 hs2
    rw [hrest] at hr1 hr2
    have hr2s : r2s = [] := hs2.mp (by simp [isOkE])
    subst hr2s
    simp only [List.append_nil] at hs1
    refine ⟨r2r, ?_, ?_⟩
    · simp only [opsOf, create_files_and_dirsT, hmk, hsub, hrest]
      simp [hs1, hr1]
    · simp only [create_files_and_dirsT, hmk, hsub, hrest]
      exact hr2
  | case3 fs pp name sub rest fs1 hmk tr e hsub ihs =>
    obtain ⟨r2s, hs1, hs2⟩ := ihs
    rw [hsub] at hs1 hs2
    have hne : ¬r2s = [] := by
      intro he
      simpa [isOkE] using hs2.mpr he
    refine ⟨r2s ++ opsOf pp rest, ?_, ?_⟩
    · simp only [opsOf, create_files_and_dirsT, hmk, hsub]
      simp [hs1]
    · simp [create_files_and_dirsT, hmk, hsub, isOkE, hne]
  | case4 fs pp name sub rest e hmk =>
    refine ⟨opsOf pp ((name, Node.dir sub) :: rest), ?_, ?_⟩
    · simp [create_files_and_dirsT, hmk]
    · simp [create_files_and_dirsT, hmk, isOkE, opsOf]
  | case5 fs pp name content rest fs1 hw tr2 r hrest ihr =>
    obtain ⟨r2r, hr1, hr2⟩ := ihr
    rw [hrest] at hr1 hr2
    refine ⟨r2r, ?_, ?_⟩
    · simp only [opsOf, create_files_and_dirsT, hw, hrest]
      simp [hr1]
    · simp only [create_files_and_dirsT, hw, hrest]
      exact hr2
  | case6 fs pp name content rest e hw =>
    refine ⟨opsOf pp ((name, Node.file content) :: rest), ?_, ?_⟩
    · simp [create_files_and_dirsT, hw]
    · simp [create_files_and_dirsT, hw, isOkE, opsOf]

/-- The full schedule contains filesystem events only (no prints). -/
theorem opsOf_all_fsOp : ∀ (pp : List String) (items : List (String × Node)),
    (opsOf pp items).all evIsFsOp = true := by
  intro pp items
  induction pp, items using opsOf.induct with
  | case1 pp => simp [opsOf]
  | case2 pp name sub rest ihs ihr =>
    simp [opsOf, List.all_append, evIsFsOp, ihs, ihr]
  | case3 pp name content rest ihr =>
    simp [opsOf, evIsFsOp, ihr]


/-! ### Path disequality helpers -/

theorem ne_append_of_ne_nil {A ks : List String} (h : ks ≠ []) : A ++ ks ≠ A := by
  intro heq
  have h2 : A ++ ks = A ++ [] := by simpa using heq
  exact h (List.append_cancel_left h2)

theorem append_key_ne {pp : List String} {k name : String} {t : List String} (hk : ¬k = name) :
    pp ++ k :: t ≠ pp ++ [name] := by
  intro h
  have h2 : k :: t = [name] := List.append_cancel_left h
  simp at h2
  exact hk h2.1

theorem append_key_ne_deep {pp : List String} {k name : String} {t ks : List String}
    (hk : ¬k = name) : pp ++ k :: t ≠ (pp ++ [name]) ++ ks := by
  intro h
  rw [← append_cons_eq] at h
  have h2 : k :: t = name :: ks := List.append_cancel_left h
  simp at h2
  exact hk h2.1

/-! ### Convenience wrappers for successful runs -/

theorem cfad_ok_dir_mono {fs fs' : FS} {pp : List String} {items : List (String × Node)}
    (h : create_files_and_dirs fs pp items = .ok fs') (q : List String)
    (hq : getObj fs q = some .dirO) : getObj fs' q = some .dirO := by
  have h0 := cfad_dir_mono fs pp items q hq
  rw [h] at h0
  simpa [resState] using h0

theorem cfad_ok_frame {fs fs' : FS} {pp : List String} {items : List (String × Node)}
    (h : create_files_and_dirs fs pp items = .ok fs') (q : List String)
    (hq : ∀ ks ∈ keyPaths items, q ≠ pp ++ ks) : getObj fs' q = getObj fs q := by
  have h0 := cfad_frame fs pp items q hq
  rw [h] at h0
  simpa [resState] using h0

/-! ### Collision-freedom only inspects the initial state at key paths -/

theorem collisionFreeB_congr : ∀ (items : List (String × Node)) (pp : List String) (fs fs1 : FS),
    (∀ ks ∈ keyPaths items, getObj fs1 (pp ++ ks) = getObj fs (pp ++ ks)) →
    collisionFreeB fs1 pp items = collisionFreeB fs pp items := by
  intro items
  induction items using keyPaths.induct with
  | case1 => intro pp fs fs1 h; simp [collisionFreeB]
  | case2 name c rest ih =>
    intro pp fs fs1 h
    have h1 : getObj fs1 (pp ++ [name]) = getObj fs (pp ++ [name]) :=
      h [name] (by simp [keyPaths])
    have h2 := ih pp fs fs1 (fun ks hks =>
      h ks (by simp only [keyPaths, List.mem_cons]; exact Or.inr hks))
    simp only [collisionFreeB, h1, h2]
  | case3 name sub rest ihsub ihrest =>
    intro pp fs fs1 h
    have h1 : getObj fs1 (pp ++ [name]) = getObj fs (pp ++ [name]) :=
      h [name] (by simp [keyPaths])
    have h2 := ihsub (pp ++ [name]) fs fs1 (fun ks hks => by
      have h0 := h (name :: ks) (by
        simp only [keyPaths, List.mem_cons, List.mem_append, List.mem_map]
        exact Or.inr (Or.inl ⟨ks, hks, rfl⟩))
      rw [append_cons_eq] at h0
      exact h0)
    have h3 := ihrest pp fs fs1 (fun ks hks => h ks (by
      simp only [keyPaths, List.mem_cons, List.mem_append, List.mem_map]
      exact Or.inr (Or.inr hks)))
    simp only [collisionFreeB, h1, h2, h3]

/-! ### What the primitive operations can fail on -/

theorem mkdirEO_error_cases {fs e : FS} {p : List String}
    (hpar : getObj fs p.dropLast = some .dirO) (h : mkdirEO fs p = .error e) :
    ∃ c, getObj fs p = some (.fileO c) := by
  unfold mkdirEO at h
  split at h
  · next => simp at h
  · next hg => exact ⟨_, hg⟩
  · next =>
      rw [hpar] at h
      simp at h

theorem writeFileW_error_cases {fs e : FS} {p : List String} {c : String}
    (hpar : getObj fs p.dropLast = some .dirO) (h : writeFileW fs p c = .error e) :
    getObj fs p = some .dirO := by
  unfold writeFileW at h
  split at h
  · next hg => exact hg
  · next => simp at h
  · next =>
      rw [hpar] at h
      simp at h

theorem mkdirEO_ok_not_file {fs fs' : FS} {p : List String} (h : mkdirEO fs p = .ok fs')
    (c : String) : getObj fs p ≠ some (.fileO c) := by
  intro hg
  unfold mkdirEO at h
  rw [hg] at h
  simp at h


/-! ### Success is equivalent to collision-freedom -/

theorem cfad_isOk_eq_collisionFree : ∀ (fs : FS) (pp : List String) (items : List (String × Node)),
    getObj fs pp = some .dirO → wfItemsB items = true →
    isOkE (create_files_and_dirs fs pp items) = collisionFreeB fs pp items := by
  intro fs pp items
  induction fs, pp, items using create_files_and_dirs.induct with
  | case1 fs pp =>
    intro _ _
    simp [create_files_and_dirs, collisionFreeB, isOkE]
  | case2 fs pp name sub rest fs1 h1 fs2 h2 ihs ihr =>
    intro hdir hwf
    obtain ⟨hnod, hwfs, hwfr⟩ := wf_cons_dir hwf
    have hcur1 : getObj fs1 (pp ++ [name]) = some .dirO := mkdirEO_ok_self h1
    have hpp1 : getObj fs1 pp = some .dirO := mkdirEO_ok_dir_mono h1 pp hdir
    have hpp2 : getObj fs2 pp = some .dirO := cfad_ok_dir_mono h2 pp hpp1
    have hagree_s : ∀ ks ∈ keyPaths sub,
        getObj fs1 ((pp ++ [name]) ++ ks) = getObj fs ((pp ++ [name]) ++ ks) := by
      intro ks hks
      obtain ⟨k, t, rfl, _⟩ := keyPaths_head sub ks hks
      exact mkdirEO_ok_frame h1 _ (ne_append_of_ne_nil (by simp))
    have hs := ihs hcur1 hwfs
    rw [h2] at hs
    have hcfs : collisionFreeB fs (pp ++ [name]) sub = true := by
      rw [← collisionFreeB_congr sub (pp ++ [name]) fs fs1 hagree_s, ← hs]
      simp [isOkE]
    have hagree_r : ∀ ks ∈ keyPaths rest,
        getObj fs2 (pp ++ ks) = getObj fs (pp ++ ks) := by
      intro ks hks
      obtain ⟨k, t, rfl, hk⟩ := keyPaths_head rest ks hks
      have hkname : ¬k = name := by
        intro he
        subst he
        rw [hnod] at hk
        simp at hk
      have e1 : getObj fs2 (pp ++ k :: t) = getObj fs1 (pp ++ k :: t) :=
        cfad_ok_frame h2 _ (fun ks2 hks2 => append_key_ne_deep hkname)
      have e2 : getObj fs1 (pp ++ k :: t) = getObj fs (pp ++ k :: t) :=
        mkdirEO_ok_frame h1 _ (append_key_ne hkname)
      exact e1.trans e2
    have hrest := ihr hpp2 hwfr
    have hcongr_r := collisionFreeB_congr rest pp fs fs2 hagree_r
    simp only [create_files_and_dirs, h1, h2]
    rw [hrest, hcongr_r]
    simp only [collisionFreeB, hcfs]
    cases hgc : getObj fs (pp ++ [name]) with
    | none => simp
    | some obj =>
      cases obj with
      | dirO => simp
      | fileO c => exact absurd hgc (mkdirEO_ok_not_file h1 c)
  | case3 fs pp name sub rest fs1 h1 e he ihs =>
    intro hdir hwf
    obtain ⟨hnod, hwfs, hwfr⟩ := wf_cons_dir hwf
    have hcur1 : getObj fs1 (pp ++ [name]) = some .dirO := mkdirEO_ok_self h1
    have hagree_s : ∀ ks ∈ keyPaths sub,
        getObj fs1 ((pp ++ [name]) ++ ks) = getObj fs ((pp ++ [name]) ++ ks) := by
      intro ks hks
      obtain ⟨k, t, rfl, _⟩ := keyPaths_head sub ks hks
      exact mkdirEO_ok_frame h1 _ (ne_append_of_ne_nil (by simp))
    have hs := ihs hcur1 hwfs
    rw [he] at hs
    simp only [isOkE] at hs
    have hcfs : collisionFreeB fs (pp ++ [name]) sub = false := by
      rw [← collisionFreeB_congr sub (pp ++ [name]) fs fs1 hagree_s, ← hs]
    simp only [create_files_and_dirs, h1, he, collisionFreeB, isOkE, hcfs]
    simp
  | case4 fs pp name sub rest e he =>
    intro hdir hwf
    have hpar : getObj fs (pp ++ [name]).dropLast = some .dirO := by
      simpa using hdir
    obtain ⟨c, hgc⟩ := mkdirEO_error_cases hpar he
    simp only [create_files_and_dirs, he, collisionFreeB, isOkE, hgc]
    simp
  | case5 fs pp name content rest fs1 h1 ihr =>
    intro hdir hwf
    obtain ⟨hnod, hwfr⟩ := wf_cons_file hwf
    have hpp1 : getObj fs1 pp = some .dirO := writeFileW_ok_dir_mono h1 pp hdir
    have hagree_r : ∀ ks ∈ keyPaths rest,
        getObj fs1 (pp ++ ks) = getObj fs (pp ++ ks) := by
      intro ks hks
      obtain ⟨k, t, rfl, hk⟩ := keyPaths_head rest ks hks
      have hkname : ¬k = name := by
        intro he2
        subst he2
        rw [hnod] at hk
        simp at hk
      exact writeFileW_ok_frame h1 _ (append_key_ne hkname)
    have hrest := ihr hpp1 hwfr
    have hcongr_r := collisionFreeB_congr rest pp fs fs1 hagree_r
    simp only [create_files_and_dirs, h1]
    rw [hrest, hcongr_r]
    simp only [collisionFreeB]
    cases hgc : getObj fs (pp ++ [name]) with
    | none => simp
    | some obj =>
      cases obj with
      | dirO => exact absurd hgc (writeFileW_ok_not_dir h1)
      | fileO c => simp
  | case6 fs pp name content rest e he =>
    intro hdir hwf
    have hpar : getObj fs (pp ++ [name]).dropLast = some .dirO := by
      simpa using hdir
    have hgc := writeFileW_error_cases hpar he
    simp only [create_files_and_dirs, he, collisionFreeB, isOkE, hgc]
    simp

/-! ### Base-directory creation with parents -/

theorem mkdirParentsEO_ok_dir : ∀ (segs : List String) (fs fs' : FS) (done : List String),
    getObj fs done = some .dirO → mkdirParentsEO fs done segs = .ok fs' →
    getObj fs' (done ++ segs) = some .dirO := by
  intro segs
  induction segs with
  | nil =>
    intro fs fs' done h hm
    simp [mkdirParentsEO] at hm
    subst hm
    simpa using h
  | cons s rest ih =>
    intro fs fs' done h hm
    simp only [mkdirParentsEO] at hm
    cases hmk : mkdirEO fs (done ++ [s]) with
    | ok fs1 =>
      rw [hmk] at hm
      have h0 := ih fs1 fs' (done ++ [s]) (mkdirEO_ok_self hmk) hm
      rw [append_cons_eq]
      exact h0
    | error e =>
      rw [hmk] at hm
      simp at hm


/-! ### Entry membership and lookup -/

theorem lookupNode_isSome_of_mem : ∀ {items : List (String × Node)} {name : String} {v : Node},
    (name, v) ∈ items → (lookupNode items name).isSome = true := by
  intro items
  induction items with
  | nil => intro name v h; simp at h
  | cons hd rest ih =>
    obtain ⟨a, w⟩ := hd
    intro name v h
    rcases List.mem_cons.mp h with heq | hmem
    · obtain ⟨h1, h2⟩ := Prod.mk.injEq .. ▸ heq
      simp [lookupNode, h1]
    · by_cases ha : a = name
      · simp [lookupNode, ha]
      · simp only [lookupNode, ha, if_false]
        exact ih hmem

theorem lookupNode_of_mem_wf : ∀ {items : List (String × Node)} {name : String} {v : Node},
    wfItemsB items = true → (name, v) ∈ items → lookupNode items name = some v := by
  intro items
  induction items with
  | nil => intro name v _ h; simp at h
  | cons hd rest ih =>
    obtain ⟨a, w⟩ := hd
    intro name v hwf hmem
    have hnod : lookupNode rest a = none ∧ wfItemsB rest = true := by
      cases w with
      | file c => exact ⟨(wf_cons_file hwf).1, (wf_cons_file hwf).2⟩
      | dir s => exact ⟨(wf_cons_dir hwf).1, (wf_cons_dir hwf).2.2⟩
    rcases List.mem_cons.mp hmem with heq | hmem2
    · obtain ⟨h1, h2⟩ := Prod.mk.injEq .. ▸ heq
      subst h1
      subst h2
      simp [lookupNode]
    · have ha : ¬a = name := by
        intro he
        subst he
        have hs := lookupNode_isSome_of_mem hmem2
        rw [hnod.1] at hs
        simp at hs
      simp only [lookupNode, ha, if_false]
      exact ih hnod.2 hmem2

theorem treeGet_singleton : ∀ (items : List (String × Node)) (name : String),
    treeGet items [name] = lookupNode items name := by
  intro items name
  induction items with
  | nil => simp [treeGet, lookupNode]
  | cons hd rest ih =>
    obtain ⟨a, w⟩ := hd
    by_cases h : a = name
    · rw [treeGet.eq_def]
      simp [h, lookupNode]
    · rw [treeGet.eq_def]
      simp only [h, if_false, lookupNode]
      exact ih

/-! ### Every mapping entry of a successful run is recursed into -/

theorem reaches_dir_entry : ∀ (fs : FS) (pp : List String) (items : List (String × Node)),
    ∀ fs', create_files_and_dirs fs pp items = .ok fs' →
    ∀ name sub, (name, Node.dir sub) ∈ items →
    ∃ fs1, Reaches fs pp items fs1 (pp ++ [name]) sub := by
  intro fs pp items
  induction fs, pp, items using create_files_and_dirs.induct with
  | case1 fs pp =>
    intro fs' hok name sub hmem
    simp at hmem
  | case2 fs pp name0 sub0 rest fs1 h1 fs2 h2 ihs ihr =>
    intro fs' hok name sub hmem
    simp only [create_files_and_dirs, h1, h2] at hok
    rcases List.mem_cons.mp hmem with heq | hmem2
    · obtain ⟨hn, hv⟩ := Prod.mk.injEq .. ▸ heq
      subst hn
      have hv2 : sub = sub0 := by
        injection hv
      subst hv2
      exact ⟨fs1, Reaches.child fs fs1 fs1 pp (pp ++ [name]) name sub sub rest h1
        (Reaches.here fs1 (pp ++ [name]) sub)⟩
    · obtain ⟨fs1x, hr⟩ := ihr fs' hok name sub hmem2
      exact ⟨fs1x, Reaches.sibling_dir fs fs1 fs2 fs1x pp (pp ++ [name]) name0 sub0 sub rest
        h1 h2 hr⟩
  | case3 fs pp name0 sub0 rest fs1 h1 e he ihs =>
    intro fs' hok name sub hmem
    simp only [create_files_and_dirs, h1, he] at hok
    simp at hok
  | case4 fs pp name0 sub0 rest e he =>
    intro fs' hok name sub hmem
    simp only [create_files_and_dirs, he] at hok
    simp at hok
  | case5 fs pp name0 content rest fs1 h1 ihr =>
    intro fs' hok name sub hmem
    simp only [create_files_and_dirs, h1] at hok
    rcases List.mem_cons.mp hmem with heq | hmem2
    · obtain ⟨hn, hv⟩ := Prod.mk.injEq .. ▸ heq
      cases hv
    · obtain ⟨fs1x, hr⟩ := ihr fs' hok name sub hmem2
      exact ⟨fs1x, Reaches.sibling_file fs fs1 fs1x pp (pp ++ [name]) name0 content sub rest
        h1 hr⟩
  | case6 fs pp name0 content rest e he =>
    intro fs' hok name sub hmem
    simp only [create_files_and_dirs, he] at hok
    simp at hok

/-! ### Trace corollaries -/

theorem cfadT_trace_of_ok {fs fs' : FS} {pp : List String} {items : List (String × Node)}
    {tr : List Ev} (h : create_files_and_dirsT fs pp items = (tr, .ok fs')) :
    tr = opsOf pp items := by
  obtain ⟨r2, h1, h2⟩ := cfadT_trace fs pp items
  rw [h] at h1 h2
  have hr : r2 = [] := h2.mp (by simp [isOkE])
  subst hr
  simpa using h1.symm

theorem cfadT_trace_all_fsOp (fs : FS) (pp : List String) (items : List (String × Node)) :
    ((create_files_and_dirsT fs pp items).1).all evIsFsOp = true := by
  obtain ⟨r2, h1, _⟩ := cfadT_trace fs pp items
  have h0 := opsOf_all_fsOp pp items
  rw [h1, List.all_append, Bool.and_eq_true] at h0
  exact h0.1

/-! ### The two scripts contain the same helper -/

theorem web_cfad_eq : ∀ (fs : FS) (pp : List String) (items : List (String × Node)),
    web_create_files_and_dirs fs pp items = create_files_and_dirs fs pp items := by
  intro fs pp items
  induction fs, pp, items using web_create_files_and_dirs.induct with
  | case1 fs pp => simp [web_create_files_and_dirs, create_files_and_dirs]
  | case2 fs pp name sub rest fs1 h1 fs2 h2 ihs ihr =>
    rw [h2] at ihs
    simp only [web_create_files_and_dirs, create_files_and_dirs, h1, h2, ← ihs, ihr]
  | case3 fs pp name sub rest fs1 h1 e he ihs =>
    rw [he] at ihs
    simp only [web_create_files_and_dirs, create_files_and_dirs, h1, he, ← ihs]
  | case4 fs pp name sub rest e he =>
    simp only [web_create_files_and_dirs, create_files_and_dirs, he]
  | case5 fs pp name content rest fs1 h1 ihr =>
    simp only [web_create_files_and_dirs, create_files_and_dirs, h1, ihr]
  | case6 fs pp name content rest e he =>
    simp only [web_create_files_and_dirs, create_files_and_dirs, he]

theorem web_cfadT_eq : ∀ (fs : FS) (pp : List String) (items : List (String × Node)),
    web_create_files_and_dirsT fs pp items = create_files_and_dirsT fs pp items := by
  intro fs pp items
  induction fs, pp, items using web_create_files_and_dirsT.induct with
  | case1 fs pp => simp [web_create_files_and_dirsT, create_files_and_dirsT]
  | case2 fs pp name sub rest fs1 hmk tr fs2 hsub tr2 r hrest ihs ihr =>
    rw [hsub] at ihs
    rw [hrest] at ihr
    simp only [web_create_files_and_dirsT, create_files_and_dirsT, hmk, hsub, hrest, ← ihs, ← ihr]
  | case3 fs pp name sub rest fs1 hmk tr e hsub ihs =>
    rw [hsub] at ihs
    simp only [web_create_files_and_dirsT, create_files_and_dirsT, hmk, hsub, ← ihs]
  | case4 fs pp name sub rest e hmk =>
    simp only [web_create_files_and_dirsT, create_files_and_dirsT, hmk]
  | case5 fs pp name content rest fs1 hw tr2 r hrest ihr =>
    rw [hrest] at ihr
    simp only [web_create_files_and_dirsT, create_files_and_dirsT, hw, hrest, ← ihr]
  | case6 fs pp name content rest e hw =>
    simp only [web_create_files_and_dirsT, create_files_and_dirsT, hw]


/-! ## Claim theorems -/

/-- C1 counterexample: the base path ["p"] exists (and the model imposes no
permission restrictions), yet after running the materializer on the tree
`{"b": {"c.txt": ""}}` the mapping key "b" does not correspond to an existing
directory: a pre-existing file at ["p","b"] makes the run raise, refuting the
claim as universally stated. -/
theorem C1_counterexample :
    getObj [(["p"], FSObj.dirO), (["p", "b"], FSObj.fileO "x")] ["p"] = some .dirO ∧
    getObj (resState (create_files_and_dirs
        [(["p"], FSObj.dirO), (["p", "b"], FSObj.fileO "x")] ["p"]
        [("b", Node.dir [("c.txt", Node.file "")])]))
      ["p", "b"] ≠ some .dirO := by
  constructor
  · simp [getObj, lookupFS]
  · simp [create_files_and_dirs, mkdirEO, getObj, lookupFS, resState]

/-- C1 (amended): for every tree with the pairwise-distinct keys a Python dict
guarantees and every base path that exists as a directory, WHEN
`create_files_and_dirs(P, T)` completes without raising, every key of T whose
value is a mapping corresponds, recursively at its path under P, to an existing
directory, and every key whose value is a string corresponds to an existing
file whose contents equal that string. -/
theorem C1_materialize_correct (fs fs' : FS) (pp : List String)
    (items : List (String × Node)) (hdir : getObj fs pp = some .dirO)
    (hwf : wfItemsB items = true) (hok : create_files_and_dirs fs pp items = .ok fs')
    (ks : List String) (n : Node) (hks : treeGet items ks = some n) :
    getObj fs' (pp ++ ks) = some (expectedObj n) :=
  cfad_correct fs pp items hdir hwf fs' hok ks n hks

/-- C1 witness: the spec example tree `{"a.txt": "hi", "b": {"c.txt": ""}}`
materialized under ["p"] yields the file ["p","b","c.txt"] with content "". -/
theorem C1_witness :
    getObj [(["p"], FSObj.dirO), (["p", "a.txt"], FSObj.fileO "hi"), (["p", "b"], FSObj.dirO),
        (["p", "b", "c.txt"], FSObj.fileO "")] (["p"] ++ ["b", "c.txt"]) =
      some (expectedObj (Node.file "")) :=
  C1_materialize_correct [(["p"], FSObj.dirO)] _ ["p"]
    [("a.txt", Node.file "hi"), ("b", Node.dir [("c.txt", Node.file "")])]
    (by simp [getObj, lookupFS]) (by simp [wfItemsB, lookupNode])
    (by simp [create_files_and_dirs, mkdirEO, writeFileW, getObj, lookupFS, setObj])
    ["b", "c.txt"] (Node.file "") (by simp [treeGet])

/-- C2: materialization is idempotent — a second run on the state produced by a
successful run succeeds and returns exactly the same state: pre-existing
directories are not an error, and each file is re-truncated in place to the
same (possibly empty) content. -/
theorem C2_idempotent (fs fs1 : FS) (pp : List String) (items : List (String × Node))
    (hdir : getObj fs pp = some .dirO) (hwf : wfItemsB items = true)
    (h1 : create_files_and_dirs fs pp items = .ok fs1) :
    create_files_and_dirs fs1 pp items = .ok fs1 :=
  cfad_self items fs1 pp hwf (fun ks n hks => cfad_correct fs pp items hdir hwf fs1 h1 ks n hks)

/-- C2 witness: re-running on the state produced by materializing the spec
example tree returns that state unchanged. -/
theorem C2_witness :
    create_files_and_dirs [(["p"], FSObj.dirO), (["p", "a.txt"], FSObj.fileO "hi"),
        (["p", "b"], FSObj.dirO), (["p", "b", "c.txt"], FSObj.fileO "")] ["p"]
      [("a.txt", Node.file "hi"), ("b", Node.dir [("c.txt", Node.file "")])] =
      .ok [(["p"], FSObj.dirO), (["p", "a.txt"], FSObj.fileO "hi"), (["p", "b"], FSObj.dirO),
        (["p", "b", "c.txt"], FSObj.fileO "")] :=
  C2_idempotent [(["p"], FSObj.dirO)] _ ["p"]
    [("a.txt", Node.file "hi"), ("b", Node.dir [("c.txt", Node.file "")])]
    (by simp [getObj, lookupFS]) (by simp [wfItemsB, lookupNode])
    (by simp [create_files_and_dirs, mkdirEO, writeFileW, getObj, lookupFS, setObj])

/-- C3: frame property — every filesystem entry whose path is not named by a
key path of the tree (recursively) is left with exactly the object it had
before the run, whether the run succeeds or fails; in particular unrelated
pre-existing entries are never deleted or modified. -/
theorem C3_frame (fs : FS) (pp : List String) (items : List (String × Node)) (q : List String)
    (hq : ∀ ks ∈ keyPaths items, q ≠ pp ++ ks) :
    getObj (resState (create_files_and_dirs fs pp items)) q = getObj fs q :=
  cfad_frame fs pp items q hq

/-- C3 witness: a pre-existing unrelated file ["p","z.txt"] survives a run of
the spec example tree with its content intact. -/
theorem C3_witness :
    getObj (resState (create_files_and_dirs
        [(["p"], FSObj.dirO), (["p", "z.txt"], FSObj.fileO "keep")] ["p"]
        [("a.txt", Node.file "hi"), ("b", Node.dir [("c.txt", Node.file "")])]))
      ["p", "z.txt"] = some (FSObj.fileO "keep") :=
  (C3_frame [(["p"], FSObj.dirO), (["p", "z.txt"], FSObj.fileO "keep")] ["p"]
      [("a.txt", Node.file "hi"), ("b", Node.dir [("c.txt", Node.file "")])] ["p", "z.txt"]
      (by simp [keyPaths])).trans (by simp [getObj, lookupFS])

/-- C4 counterexample: with a missing base path the helper does NOT create
parent directories as needed — `mkdir(exist_ok=True)` is called without
`parents=True`, so the run raises and no directory exists at basePath/name. -/
theorem C4_counterexample :
    create_files_and_dirs [] ["x"] [("d", Node.dir [])] = .error [] ∧
    getObj (resState (create_files_and_dirs [] ["x"] [("d", Node.dir [])])) ["x", "d"] ≠
      some .dirO := by
  constructor
  · simp [create_files_and_dirs, mkdirEO, getObj, lookupFS]
  · simp [create_files_and_dirs, mkdirEO, getObj, lookupFS, resState]

/-- C4 (amended): provided the parent path already exists as a directory (the
helper itself never creates missing parents; the base's parents are created
beforehand by create_structure), a successful run ensures, for every entry
whose value is a nested mapping, a directory at basePath/name — raising no
error if it already exists — and recurses into it. -/
theorem C4_dir_entry (fs fs' : FS) (pp : List String) (items : List (String × Node))
    (name : String) (sub : List (String × Node)) (hdir : getObj fs pp = some .dirO)
    (hwf : wfItemsB items = true) (hok : create_files_and_dirs fs pp items = .ok fs')
    (hmem : (name, Node.dir sub) ∈ items) :
    getObj fs' (pp ++ [name]) = some .dirO ∧
    ∃ fs1, Reaches fs pp items fs1 (pp ++ [name]) sub := by
  constructor
  · have hks : treeGet items [name] = some (Node.dir sub) := by
      rw [treeGet_singleton]
      exact lookupNode_of_mem_wf hwf hmem
    have h0 := cfad_correct fs pp items hdir hwf fs' hok [name] (Node.dir sub) hks
    simpa [expectedObj] using h0
  · exact reaches_dir_entry fs pp items fs' hok name sub hmem

/-- C4 witness: the single mapping entry "d" under existing base ["p"] ends up
as a directory and is recursed into. -/
theorem C4_witness :
    getObj [(["p"], FSObj.dirO), (["p", "d"], FSObj.dirO)] (["p"] ++ ["d"]) = some .dirO ∧
    ∃ fs1, Reaches [(["p"], FSObj.dirO)] ["p"] [("d", Node.dir [])] fs1 (["p"] ++ ["d"]) [] :=
  C4_dir_entry [(["p"], FSObj.dirO)] _ ["p"] [("d", Node.dir [])] "d" []
    (by simp [getObj, lookupFS]) (by simp [wfItemsB, lookupNode])
    (by simp [create_files_and_dirs, mkdirEO, getObj, lookupFS, setObj])
    (by simp)

/-- C5: the filesystem operations are performed in the mapping's insertion
order, each directory entry's entire subtree depth-first before the next
sibling: the emitted event trace is always a prefix of the full depth-first
schedule `opsOf`, and equals it on a successful run. -/
theorem C5_traversal_order (fs : FS) (pp : List String) (items : List (String × Node)) :
    (∃ r2, opsOf pp items = (create_files_and_dirsT fs pp items).1 ++ r2) ∧
    (∀ fs', (create_files_and_dirsT fs pp items).2 = .ok fs' →
      (create_files_and_dirsT fs pp items).1 = opsOf pp items) := by
  obtain ⟨r2, h1, h2⟩ := cfadT_trace fs pp items
  refine ⟨⟨r2, h1⟩, ?_⟩
  intro fs' hok
  have hr : r2 = [] := h2.mp (by simp [hok, isOkE])
  subst hr
  simpa using h1.symm

/-- C5 witness: on the spec example tree the emitted trace is exactly the
depth-first, insertion-order schedule. -/
theorem C5_witness :
    (create_files_and_dirsT [(["p"], FSObj.dirO)] ["p"]
      [("a.txt", Node.file "hi"), ("b", Node.dir [("c.txt", Node.file "")])]).1 =
      opsOf ["p"] [("a.txt", Node.file "hi"), ("b", Node.dir [("c.txt", Node.file "")])] :=
  (C5_traversal_order [(["p"], FSObj.dirO)] ["p"]
      [("a.txt", Node.file "hi"), ("b", Node.dir [("c.txt", Node.file "")])]).2
    [(["p"], FSObj.dirO), (["p", "a.txt"], FSObj.fileO "hi"), (["p", "b"], FSObj.dirO),
      (["p", "b", "c.txt"], FSObj.fileO "")]
    (by simp [create_files_and_dirsT, mkdirEO, writeFileW, getObj, lookupFS, setObj])

/-- C6 counterexample: the run fails although the base path exists as a
directory and the tree contains no mapping-valued entry — so no path segment
can collide with an existing non-directory where a directory is expected; the
failure mode is a pre-existing DIRECTORY where a file is to be written
(IsADirectoryError), which the claim omits. -/
theorem C6_counterexample :
    getObj [(["p"], FSObj.dirO), (["p", "a"], FSObj.dirO)] ["p"] = some .dirO ∧
    (∀ name sub, ¬(name, Node.dir sub) ∈ [("a", Node.file "hi")]) ∧
    isOkE (create_files_and_dirs [(["p"], FSObj.dirO), (["p", "a"], FSObj.dirO)] ["p"]
      [("a", Node.file "hi")]) = false := by
  refine ⟨by simp [getObj, lookupFS], ?_, ?_⟩
  · intro name sub h
    simp at h
  · simp [create_files_and_dirs, writeFileW, getObj, lookupFS, isOkE]

/-- C6 (amended): with the parent directory existing and dict-unique keys, the
materializer fails exactly when some pre-existing entry collides with the
prescribed kind at a key path — a non-directory where a directory is expected
(mkdir with exist_ok=True still raises) OR a directory where a file is to be
written (open "w" raises); otherwise it performs no validation of names or
contents and succeeds. -/
theorem C6_failure_characterization (fs : FS) (pp : List String)
    (items : List (String × Node)) (hdir : getObj fs pp = some .dirO)
    (hwf : wfItemsB items = true) :
    isOkE (create_files_and_dirs fs pp items) = collisionFreeB fs pp items :=
  cfad_isOk_eq_collisionFree fs pp items hdir hwf

/-- C6 witness: on a fresh base directory the spec example tree is
collision-free and the run indeed succeeds. -/
theorem C6_witness :
    isOkE (create_files_and_dirs [(["p"], FSObj.dirO)] ["p"]
      [("a.txt", Node.file "hi"), ("b", Node.dir [("c.txt", Node.file "")])]) = true :=
  (C6_failure_characterization [(["p"], FSObj.dirO)] ["p"]
      [("a.txt", Node.file "hi"), ("b", Node.dir [("c.txt", Node.file "")])]
      (by simp [getObj, lookupFS]) (by simp [wfItemsB, lookupNode])).trans
    (by simp [collisionFreeB, getObj, lookupFS])

/-- C7: no rollback or recovery — when a run fails, the raised error propagates
out carrying exactly the state built by the events already performed (the
partial tree persists), and the performed events are a proper prefix of the
full schedule: nothing after the failing entry is processed. -/
theorem C7_no_rollback (fs e : FS) (pp : List String) (items : List (String × Node))
    (tr : List Ev) (h : create_files_and_dirsT fs pp items = (tr, .error e)) :
    e = List.foldl applyEv fs tr ∧ ∃ r2, r2 ≠ [] ∧ opsOf pp items = tr ++ r2 := by
  constructor
  · have hs := cfadT_state fs pp items
    rw [h] at hs
    simpa [resState] using hs
  · obtain ⟨r2, h1, h2⟩ := cfadT_trace fs pp items
    rw [h] at h1 h2
    refine ⟨r2, ?_, by simpa using h1⟩
    intro he
    have h3 := h2.mpr he
    simp [isOkE] at h3

/-- C7 witness: a run that writes "a.txt", then fails on "b" (blocked by a
pre-existing file), keeps the written file, and the remaining schedule
(including the entry "z.txt" after the failing one) is never performed. -/
theorem C7_witness :
    [(["p"], FSObj.dirO), (["p", "b"], FSObj.fileO "x"), (["p", "a.txt"], FSObj.fileO "hi")] =
      List.foldl applyEv [(["p"], FSObj.dirO), (["p", "b"], FSObj.fileO "x")]
        [Ev.writeEv ["p", "a.txt"] "hi"] ∧
    ∃ r2, r2 ≠ [] ∧ opsOf ["p"] [("a.txt", Node.file "hi"), ("b", Node.dir []),
      ("z.txt", Node.file "")] = [Ev.writeEv ["p", "a.txt"] "hi"] ++ r2 :=
  C7_no_rollback [(["p"], FSObj.dirO), (["p", "b"], FSObj.fileO "x")] _ ["p"]
    [("a.txt", Node.file "hi"), ("b", Node.dir []), ("z.txt", Node.file "")]
    [Ev.writeEv ["p", "a.txt"] "hi"]
    (by simp [create_files_and_dirsT, mkdirEO, writeFileW, getObj, lookupFS, setObj])

/-- C8: on a successful run each script emits its full depth-first filesystem
schedule followed by exactly one completion line naming its base path (the
schedule itself contains no print, so the completion line is unique and comes
after every entry has been processed); on a failing run no completion line is
printed. -/
theorem C8_completion_line (fs : FS) :
    (∀ s, (create_structure fs).2 = .ok s →
      (create_structure fs).1 = opsOf adminBase adminStructure ++
        [Ev.printEv "Directory structure created successfully at apps/admin"]) ∧
    (∀ e, (create_structure fs).2 = .error e →
      (create_structure fs).1.all evIsFsOp = true) ∧
    (opsOf adminBase adminStructure).all evIsFsOp = true ∧
    (∀ s, (web_create_structure fs).2 = .ok s →
      (web_create_structure fs).1 = opsOf webBase webStructure ++
        [Ev.printEv "Directory structure created successfully at apps/web"]) ∧
    (∀ e, (web_create_structure fs).2 = .error e →
      (web_create_structure fs).1.all evIsFsOp = true) ∧
    (opsOf webBase webStructure).all evIsFsOp = true := by
  refine ⟨?_, ?_, opsOf_all_fsOp _ _, ?_, ?_, opsOf_all_fsOp _ _⟩
  · intro s hok
    cases hmp : mkdirParentsEO fs [] adminBase with
    | ok fs1 =>
      cases hT : create_files_and_dirsT fs1 adminBase adminStructure with
      | mk tr r =>
        cases r with
        | ok fs2 =>
          simp only [create_structure, hmp, hT]
          rw [cfadT_trace_of_ok hT]
        | error e =>
          simp only [create_structure, hmp, hT] at hok
          simp at hok
    | error e =>
      simp only [create_structure, hmp] at hok
      simp at hok
  · intro e he
    cases hmp : mkdirParentsEO fs [] adminBase with
    | ok fs1 =>
      cases hT : create_files_and_dirsT fs1 adminBase adminStructure with
      | mk tr r =>
        cases r with
        | ok fs2 =>
          simp only [create_structure, hmp, hT] at he
          simp at he
        | error e2 =>
          simp only [create_structure, hmp, hT]
          have h0 := cfadT_trace_all_fsOp fs1 adminBase adminStructure
          rw [hT] at h0
          simpa using h0
    | error e2 =>
      simp only [create_structure, hmp]
      simp
  · intro s hok
    cases hmp : mkdirParentsEO fs [] webBase with
    | ok fs1 =>
      cases hT : web_create_files_and_dirsT fs1 webBase webStructure with
      | mk tr r =>
        cases r with
        | ok fs2 =>
          simp only [web_create_structure, hmp, hT]
          rw [cfadT_trace_of_ok ((web_cfadT_eq fs1 webBase webStructure).symm.trans hT)]
        | error e =>
          simp only [web_create_structure, hmp, hT] at hok
          simp at hok
    | error e =>
      simp only [web_create_structure, hmp] at hok
      simp at hok
  · intro e he
    cases hmp : mkdirParentsEO fs [] webBase with
    | ok fs1 =>
      cases hT : web_create_files_and_dirsT fs1 webBase webStructure with
      | mk tr r =>
        cases r with
        | ok fs2 =>
          simp only [web_create_structure, hmp, hT] at he
          simp at he
        | error e2 =>
          simp only [web_create_structure, hmp, hT]
          have h0 := cfadT_trace_all_fsOp fs1 webBase webStructure
          rw [(web_cfadT_eq fs1 webBase webStructure).symm.trans hT] at h0
          simpa using h0
    | error e2 =>
      simp only [web_create_structure, hmp]
      simp
  
/-- C8 witness: when the base cannot be created (a file sits at "apps"), both
scripts fail and print nothing. -/
theorem C8_witness :
    (create_structure [(["apps"], FSObj.fileO "x")]).1.all evIsFsOp = true ∧
    (web_create_structure [(["apps"], FSObj.fileO "x")]).1.all evIsFsOp = true :=
  ⟨(C8_completion_line [(["apps"], FSObj.fileO "x")]).2.1 [(["apps"], FSObj.fileO "x")]
      (by simp [create_structure, mkdirParentsEO, mkdirEO, getObj, lookupFS, adminBase]),
   (C8_completion_line [(["apps"], FSObj.fileO "x")]).2.2.2.2.1 [(["apps"], FSObj.fileO "x")]
      (by simp [web_create_structure, mkdirParentsEO, mkdirEO, getObj, lookupFS, webBase])⟩

/-- C9: the two scripts contain the same materializer duplicated — the helper
of admin.py and the helper of web.py are extensionally equal, both in the
event sequence they perform and in the result they produce, for every
filesystem, parent path and tree. -/
theorem C9_duplicated_materializer :
    web_create_files_and_dirs = create_files_and_dirs ∧
    web_create_files_and_dirsT = create_files_and_dirsT :=
  ⟨funext fun fs => funext fun pp => funext fun items => web_cfad_eq fs pp items,
   funext fun fs => funext fun pp => funext fun items => web_cfadT_eq fs pp items⟩

/-- C10: the invariant that parent_path is an existing directory holds at every
invocation of the helper: the base directory exists after create_structure's
`mkdir(parents=True, exist_ok=True)` preceding the initial call, and every
invocation reachable from a call whose parent_path is an existing directory
again has an existing directory as parent_path. -/
theorem C10_parent_exists_invariant :
    (∀ (fs fs' : FS) (base : List String), mkdirParentsEO fs [] base = .ok fs' →
      getObj fs' base = some .dirO) ∧
    (∀ (fs fs1 : FS) (pp pp1 : List String) (items items1 : List (String × Node)),
      Reaches fs pp items fs1 pp1 items1 → getObj fs pp = some .dirO →
      getObj fs1 pp1 = some .dirO) := by
  constructor
  · intro fs fs' base h
    have h0 := mkdirParentsEO_ok_dir base fs fs' [] (by simp [getObj]) h
    simpa using h0
  · intro fs fs1 pp pp1 items items1 hr
    induction hr with
    | here fs pp items => exact fun h => h
    | child f f1 f2 p p2 nm sub it2 rest hmk hre ih =>
      exact fun h => ih (mkdirEO_ok_self hmk)
    | sibling_dir f f1 f2 f3 p p2 nm sub it2 rest hmk hcf hre ih =>
      exact fun h => ih (cfad_ok_dir_mono hcf _ (mkdirEO_ok_dir_mono hmk _ h))
    | sibling_file f f1 f2 p p2 nm content it2 rest hw hre ih =>
      exact fun h => ih (writeFileW_ok_dir_mono hw _ h)

/-- C10 witness: the base "apps/admin" exists as a directory after base
creation from an empty filesystem, and the recursive invocation on entry "d"
has its parent_path existing as a directory. -/
theorem C10_witness :
    getObj [(["apps"], FSObj.dirO), (["apps", "admin"], FSObj.dirO)] ["apps", "admin"] =
      some .dirO ∧
    getObj [(["p"], FSObj.dirO), (["p", "d"], FSObj.dirO)] (["p"] ++ ["d"]) = some .dirO :=
  ⟨C10_parent_exists_invariant.1 [] [(["apps"], FSObj.dirO), (["apps", "admin"], FSObj.dirO)]
      ["apps", "admin"] (by simp [mkdirParentsEO, mkdirEO, getObj, lookupFS, setObj]),
   C10_parent_exists_invariant.2 [(["p"], FSObj.dirO)]
      [(["p"], FSObj.dirO), (["p", "d"], FSObj.dirO)] ["p"] (["p"] ++ ["d"])
      [("d", Node.dir [])] []
      (Reaches.child _ _ _ _ _ "d" [] [] []
        (by simp [mkdirEO, getObj, lookupFS, setObj])
        (Reaches.here _ _ _))
      (by simp [getObj, lookupFS])⟩

end ModularApp
